import Mathlib

/-!
# Verification of the auth-service gateway

A shallow embedding of the Go sources of the `auth-service` repository:
the JWT auth middleware (`middleware/auth.go`), the proxy handlers
`AnalyzeVideoProxy` / `TranscodeVideoProxy`, the job read handlers
`GetVideoAnalyses(Info)` / `GetVideoTranscode(s|Info)`, the S3 download
handler `DownloadVideoFromS3` with its helpers `parseS3URL`,
`getContentType`, and the profile handler `GetProfile`.

External collaborators (the JWT library, `encoding/json`, the gorm
database, the S3 client and the backend HTTP services) are modelled at
their interfaces: the handlers are parameterised over them, exactly as
the spec treats them ("out of scope, specified only at their
interface").  Machine strings are Lean `String`s, byte payloads are
`List Nat`, Go's `float64`-typed JWT claim values are modelled as the
JSON number they were decoded from.
-/

namespace AuthService

/-- JSON values as decoded by Go's `encoding/json` into `interface{}`:
null, booleans, numbers, strings, arrays and objects.  Numbers are
modelled as integers (the identifiers this service injects and compares
are Go `uint` values). -/
inductive Json where
  | null : Json
  | bool (b : Bool) : Json
  | num (n : Int) : Json
  | str (s : String) : Json
  | arr (elems : List Json) : Json
  | obj (fields : List (String × Json)) : Json

/-- A decoded JSON object, i.e. Go's `map[string]interface{}`.  The
association list carries the bindings; `mapSet` keeps keys unique. -/
abbrev JsonObj := List (String × Json)

/-- Keyed read of an association-list map: the value of the binding
for `k`, if any. -/
def assocFind {β : Type} (l : List (String × β)) (k : String) : Option β :=
  match l.find? (fun p => p.1 == k) with
  | none => none
  | some p => some p.2

/-- Keyed write to an association-list map: overwrites every existing
binding of `k` (a well-formed map has at most one) or appends a fresh
one. -/
def assocSet {β : Type} (l : List (String × β)) (k : String) (v : β) :
    List (String × β) :=
  if l.any (fun p => p.1 == k) then
    l.map (fun p => if p.1 == k then (k, v) else p)
  else
    l ++ [(k, v)]

/-- Reading `m[k]` from a Go map. -/
def jsonLookup (o : JsonObj) (k : String) : Option Json :=
  assocFind o k

/-- Go map assignment `m[k] = v`. -/
def mapSet (o : JsonObj) (k : String) (v : Json) : JsonObj :=
  assocSet o k v

/-- Go's `uint(x)` conversion applied to a decoded JWT `float64` claim,
for the non-negative whole identifiers this service issues. -/
def goUint (n : Int) : Nat := n.toNat

/-! ## HTTP headers (`net/http.Header`, a `map[string][]string`) -/

/-- An HTTP header map.  Inbound maps produced by `net/http` have
canonicalised, duplicate-free names; the operations below maintain
that shape. -/
abbrev Header := List (String × List String)

/-- `Header.Get`-style read of all values stored under a name
(`[]` when the name is absent). -/
def hdrGet (h : Header) (k : String) : List String :=
  (assocFind h k).getD []

/-- `Header.Add`: appends a value to the entry for `k`, creating the
entry if absent. -/
def hdrAdd (h : Header) (k v : String) : Header :=
  if h.any (fun p => p.1 == k) then
    h.map (fun p => if p.1 == k then (p.1, p.2 ++ [v]) else p)
  else
    h ++ [(k, [v])]

/-- `Header.Set`: replaces the entry for `k` with the single value. -/
def hdrSet (h : Header) (k v : String) : Header :=
  assocSet h k [v]

/-- Adding every value of one header entry to an accumulator map, as in
the copy loops of the Go handlers. -/
def hdrAddAll (acc : Header) (k : String) (vs : List String) : Header :=
  vs.foldl (fun a v => hdrAdd a k v) acc

/-! ## Persisted records (`models/video_analyses.go`, `models/transcoding_job.go`) -/

/-- `models.VideoAnalysis`.  Timestamps are modelled as epoch numbers. -/
structure VideoAnalysis where
  jobId : String
  videoId : String
  s3Url : String
  peopleCount : Option Int
  status : String
  createdAt : Nat
  completedAt : Option Nat
  errorMessage : Option String
  createdBy : Option Nat
deriving DecidableEq

/-- `models.TranscodingJob`.  `sourceDuration` is a numeric model of the
Go `*float64` field; timestamps are epoch numbers. -/
structure TranscodingJob where
  id : String
  jobId : String
  sourcePath : String
  targetCodec : String
  targetContainer : String
  sourceCodec : Option String
  sourceContainer : Option String
  outputURL : Option String
  durationSeconds : Option Int
  status : String
  errorMessage : Option String
  gpuUsed : Option String
  qualityPreset : Option String
  bitrate : Option Int
  fileSizeBytes : Option Int
  sourceDuration : Option Rat
  sourceBitrate : Option Int
  sourceWidth : Option Int
  sourceHeight : Option Int
  insertedAt : Nat
  updatedAt : Nat
  createdBy : Option Nat
deriving DecidableEq

/-- `models.User` (the fields the profile handler consults). -/
structure User where
  id : Nat
  email : String
  password : String
deriving DecidableEq

/-! ## Responses written to the caller -/

/-- The response a handler leaves on its `http.ResponseWriter`.
`plain` is `http.Error` (single-line plaintext); the `json…`
constructors stand for a 200 response whose body is the JSON encoding
of the given record(s); `relay` is a proxied backend response;
`download` is a streamed S3 object with its derived metadata;
`panicked` records a runtime panic, after which `net/http` drops the
connection and no response is written. -/
inductive HttpResponse where
  | plain (status : Nat) (body : String) : HttpResponse
  | jsonAnalysis (r : VideoAnalysis) : HttpResponse
  | jsonAnalysisList (rs : List VideoAnalysis) : HttpResponse
  | jsonTranscode (t : TranscodingJob) : HttpResponse
  | jsonTranscodeList (ts : List TranscodingJob) : HttpResponse
  | jsonUser (u : User) : HttpResponse
  | relay (status : Nat) (headers : Header) (body : List Nat) : HttpResponse
  | download (contentType : String) (filename : String)
      (contentLength : Option Int) (body : List Nat) : HttpResponse
  | panicked : HttpResponse
deriving DecidableEq

/-- Does the response carry a 4xx status? (`http.Error` responses only;
relayed statuses belong to the backend.) -/
def HttpResponse.isClientError : HttpResponse → Prop
  | .plain s _ => 400 ≤ s ∧ s < 500
  | _ => False

/-! ## Credential validator (`middleware/auth.go`, `AuthMiddleware`) -/

/-- The claim set of a verified token, as `jwt.MapClaims` decoded from
JSON. -/
abbrev Claims := List (String × Json)

/-- The request-scoped context the middleware hands to the wrapped
handler: the raw values stored under the `user_id` and `email` keys
(`none` when the claim key is absent — Go stores a nil interface). -/
structure Ctx where
  userIdVal : Option Json
  emailVal : Option Json

/-- What `AuthMiddleware` does with a request: reject it with
`http.Error(status, msg)` without ever calling the wrapped handler, or
run the wrapped handler on the enriched context. -/
inductive AuthOutcome (α : Type) where
  | unauthorized (status : Nat) (msg : String) : AuthOutcome α
  | handled (a : α) : AuthOutcome α

/-- Go's `strings.Split` with a one-character separator, on the
character list of the string (`Split("", sep) = [""]`). -/
def splitOnChar (sep : Char) : List Char → List (List Char)
  | [] => [[]]
  | c :: rest =>
      if c = sep then [] :: splitOnChar sep rest
      else
        match splitOnChar sep rest with
        | [] => [[c]]
        | g :: gs => (c :: g) :: gs

/-- `strings.Split(s, " ")` as used on the Authorization header. -/
def goSplitSpace (s : String) : List String :=
  (splitOnChar ' ' s.data).map String.mk

/-- `middleware.AuthMiddleware`.  `verify` models `jwt.Parse` together
with the `token.Valid` check: `none` when parsing, signature
verification or expiry validation fails, `some claims` for a valid
token (with this parse mode the claims are always `jwt.MapClaims`, so
the type-assertion branch of the Go code cannot fire).  `next` is the
wrapped handler; the middleware stores the raw `user_id` and `email`
claim values in the request context without further checks. -/
def authMiddleware {α : Type} (verify : String → Option Claims)
    (authHeader : String) (next : Ctx → α) : AuthOutcome α :=
  if authHeader = "" then
    .unauthorized 401 "Authorization header required"
  else
    match goSplitSpace authHeader with
    | [b, tok] =>
        if b = "Bearer" then
          match verify tok with
          | none => .unauthorized 401 "Invalid token"
          | some claims =>
              .handled (next { userIdVal := jsonLookup claims "user_id",
                               emailVal := jsonLookup claims "email" })
        else .unauthorized 401 "Invalid authorization format"
    | _ => .unauthorized 401 "Invalid authorization format"

/-- The handler-side guard `userID, ok := r.Context().Value("user_id").(float64)`:
the assertion succeeds exactly when the stored claim value is a JSON
number (decoded to `float64` by `encoding/json`). -/
def isNumClaim : Option Json → Bool
  | some (.num _) => true
  | _ => false

/-! ## Claim injector and proxy forwarder
(`AnalyzeVideoProxy`, `TranscodeVideoProxy`) -/

/-- The outcome of `json.Unmarshal(bodyBytes, &originalBody)` for a Go
`map[string]interface{}` target: a non-nil error (`err`), or success.
On success, per the `encoding/json` documentation, a JSON object fills
the map (`decoded`), while the JSON literal `null` is accepted by
setting the map to nil (`nullMap`); every other JSON value is a type
mismatch error. -/
inductive UnmarshalResult where
  | err : UnmarshalResult
  | nullMap : UnmarshalResult
  | decoded (o : JsonObj) : UnmarshalResult

/-- The body-reading step of the proxy handlers: an empty body becomes
a fresh empty map, a non-empty body goes through the decoder `dec`
(the `encoding/json` collaborator). -/
def decodeBody (dec : String → UnmarshalResult) (body : String) : UnmarshalResult :=
  if body = "" then .decoded [] else dec body

/-- A concrete instance of the `encoding/json` collaborator for the
bodies evaluated in the witnesses below, following the library's
documented behaviour for a `map[string]interface{}` target: the JSON
literal `null` is accepted without error by setting the map to nil,
and the other bodies used here are decode errors. -/
def unmarshalNullModel (s : String) : UnmarshalResult :=
  if s = "null" then .nullMap else .err

/-- `originalBody[key] = uint(userID)`: the ownership injection. -/
def injectOwner (key : String) (uid : Nat) (o : JsonObj) : JsonObj :=
  mapSet o key (.num uid)

/-- The header-copy loop of the proxy handlers followed by the two
`Set` calls: every inbound entry other than `Authorization` and
`Content-Length` is copied value by value into the fresh outbound
header map, then `Content-Type` is set to `application/json` and
`Content-Length` to the (re-computed) byte length of the injected
body. -/
def buildForwardHeaders (inHdrs : Header) (bodyLen : Nat) : Header :=
  let copied := inHdrs.foldl
    (fun acc p =>
      if p.1 ≠ "Authorization" ∧ p.1 ≠ "Content-Length" then
        hdrAddAll acc p.1 p.2
      else acc) []
  hdrSet (hdrSet copied "Content-Type" "application/json")
    "Content-Length" (toString bodyLen)

/-- The outbound request handed to `client.Do`: method and target URL,
the rebuilt header map, the re-serialised body bytes and the decoded
document they encode (`body = enc bodyObj` by construction). -/
structure OutboundRequest where
  method : String
  url : String
  headers : Header
  bodyObj : JsonObj
  body : List Nat

/-- A backend HTTP response as the proxy reads it: status, headers, and
the body as the chunk sequence the streaming copy consumes. -/
structure BackendResponse where
  status : Nat
  headers : Header
  bodyChunks : List (List Nat)

/-- The result of `client.Do`: a connectivity error or a response. -/
inductive BackendResult where
  | failure : BackendResult
  | success (resp : BackendResponse) : BackendResult

/-- `io.Copy`: the bounded-buffer relay loop, copying one chunk at a
time until the source is exhausted. -/
def ioCopy : List (List Nat) → List Nat
  | [] => []
  | c :: cs => c ++ ioCopy cs

/-- The phase of a proxy handler up to (and excluding) the dispatch. -/
inductive PrepareResult where
  | errResp (status : Nat) (msg : String) : PrepareResult
  | panicked : PrepareResult
  | ready (req : OutboundRequest) : PrepareResult

/-- The shared body of `AnalyzeVideoProxy` and `TranscodeVideoProxy`
before the dispatch (the two Go functions are textually identical here
except for the injected key and the target URL): context guard, body
read/decode, ownership injection, re-serialisation with the encoder
`enc` (the `json.Marshal` collaborator, which cannot fail on a decoded
map), and outbound request construction.  A `nullMap` decode leaves the
Go map nil, so the injection `originalBody[key] = …` panics. -/
def prepareProxyRequest (enc : JsonObj → List Nat)
    (dec : String → UnmarshalResult) (key url method : String)
    (uidVal : Option Json) (inHdrs : Header) (body : String) : PrepareResult :=
  match uidVal with
  | some (.num n) =>
      match decodeBody dec body with
      | .err => .errResp 400 "Invalid JSON in request body"
      | .nullMap => .panicked
      | .decoded o =>
          let modified := injectOwner key (goUint n) o
          let modifiedBytes := enc modified
          .ready { method := method, url := url,
                   headers := buildForwardHeaders inHdrs modifiedBytes.length,
                   bodyObj := modified, body := modifiedBytes }
  | _ => .errResp 500 "Invalid user context"

/-- The response-relay phase of the proxy handlers: copy every backend
header into the (fresh) response header map, write the backend status,
then stream the body chunk by chunk. -/
def relayResponse (resp : BackendResponse) : HttpResponse :=
  .relay resp.status
    (resp.headers.foldl (fun acc p => hdrAddAll acc p.1 p.2) [])
    (ioCopy resp.bodyChunks)

/-- A proxy handler end to end: prepare, dispatch through the backend
collaborator, relay.  A connectivity failure becomes 502 Bad Gateway. -/
def proxyHandler (enc : JsonObj → List Nat) (dec : String → UnmarshalResult)
    (key url method : String) (uidVal : Option Json) (inHdrs : Header)
    (body : String) (backend : OutboundRequest → BackendResult) : HttpResponse :=
  match prepareProxyRequest enc dec key url method uidVal inHdrs body with
  | .errResp s m => .plain s m
  | .panicked => .panicked
  | .ready req =>
      match backend req with
      | .failure => .plain 502 "Error connecting to video service"
      | .success resp => relayResponse resp

/-- `handlers.AnalyzeVideoProxy`: injects under `"user"` and forwards
to `<ANALYZE_VIDEO_URL>/analyze-video`. -/
def AnalyzeVideoProxy (enc : JsonObj → List Nat) (dec : String → UnmarshalResult)
    (base method : String) (uidVal : Option Json) (inHdrs : Header)
    (body : String) (backend : OutboundRequest → BackendResult) : HttpResponse :=
  proxyHandler enc dec "user" (base ++ "/analyze-video") method uidVal inHdrs body backend

/-- `handlers.TranscodeVideoProxy`: injects under `"created_by"` and
forwards to `<TRANSCODE_VIDEO_URL>/transcode`. -/
def TranscodeVideoProxy (enc : JsonObj → List Nat) (dec : String → UnmarshalResult)
    (base method : String) (uidVal : Option Json) (inHdrs : Header)
    (body : String) (backend : OutboundRequest → BackendResult) : HttpResponse :=
  proxyHandler enc dec "created_by" (base ++ "/transcode") method uidVal inHdrs body backend

/-! ## Identifier validation and the job query layer -/

def isHexDigitChar (c : Char) : Bool :=
  c.isDigit || ('a' ≤ c ∧ c ≤ 'f') || ('A' ≤ c ∧ c ≤ 'F')

/-- The `uuid.Parse` collaborator (google/uuid), modelled on its
canonical 36-character `xxxxxxxx-xxxx-xxxx-xxxx-xxxxxxxxxxxx` form —
the shape of every identifier this system mints and stores. -/
def uuidOk (s : String) : Bool :=
  s.data.length = 36 &&
  (List.range 36).all (fun i =>
    let c := s.data.getD i ' '
    if i = 8 ∨ i = 13 ∨ i = 18 ∨ i = 23 then c = '-' else isHexDigitChar c)

/-- The gorm query
`DB.Where("job_id = ? AND created_by = ?", jobID, uint(userID)).First(…)`:
the first stored record matching both conjuncts, or gorm's
"record not found". A record with a NULL owner matches no caller. -/
def dbFirstAnalysis (db : List VideoAnalysis) (jobId : String) (uid : Nat) :
    Option VideoAnalysis :=
  db.find? (fun r => r.jobId == jobId && r.createdBy == some uid)

/-- The gorm query
`DB.Where("id = ? AND created_by = ?", videoID, uint(userID)).First(…)`. -/
def dbFirstTranscode (db : List TranscodingJob) (videoId : String) (uid : Nat) :
    Option TranscodingJob :=
  db.find? (fun t => t.id == videoId && t.createdBy == some uid)

/-- `handlers.GetVideoAnalysesInfo`: context guard, UUID validation,
owner-scoped single read; an absent-or-foreign record is a 404. -/
def GetVideoAnalysesInfo (db : List VideoAnalysis) (uidVal : Option Json)
    (jobId : String) : HttpResponse :=
  match uidVal with
  | some (.num n) =>
      if uuidOk jobId then
        match dbFirstAnalysis db jobId (goUint n) with
        | none => .plain 404 "Video analysis not found or access denied"
        | some r => .jsonAnalysis r
      else .plain 400 "Invalid job ID format"
  | _ => .plain 500 "Invalid user context"

/-- `handlers.GetVideoTranscodeInfo`: as above over transcoding jobs. -/
def GetVideoTranscodeInfo (db : List TranscodingJob) (uidVal : Option Json)
    (videoId : String) : HttpResponse :=
  match uidVal with
  | some (.num n) =>
      if uuidOk videoId then
        match dbFirstTranscode db videoId (goUint n) with
        | none => .plain 404 "Video not found or access denied"
        | some t => .jsonTranscode t
      else .plain 400 "Invalid video ID format"
  | _ => .plain 500 "Invalid user context"

/-- Descending insertion sort by a numeric key, modelling the
`ORDER BY … DESC` of the collection reads. -/
def sortDescBy {α : Type} (key : α → Nat) : List α → List α
  | [] => []
  | x :: xs =>
      let rec ins (a : α) : List α → List α
        | [] => [a]
        | b :: bs => if key b ≤ key a then a :: b :: bs else b :: ins a bs
      ins x (sortDescBy key xs)

/-- `handlers.GetVideoAnalyses`: the owner-scoped collection read,
ordered by `created_at DESC`. -/
def GetVideoAnalyses (db : List VideoAnalysis) (uidVal : Option Json) : HttpResponse :=
  match uidVal with
  | some (.num n) =>
      .jsonAnalysisList
        (sortDescBy VideoAnalysis.createdAt
          (db.filter (fun r => r.createdBy == some (goUint n))))
  | _ => .plain 500 "Invalid user context"

/-- `handlers.GetVideoTranscodes`: the owner-scoped collection read,
ordered by `inserted_at DESC`. -/
def GetVideoTranscodes (db : List TranscodingJob) (uidVal : Option Json) : HttpResponse :=
  match uidVal with
  | some (.num n) =>
      .jsonTranscodeList
        (sortDescBy TranscodingJob.insertedAt
          (db.filter (fun t => t.createdBy == some (goUint n))))
  | _ => .plain 500 "Invalid user context"

/-- `handlers.GetProfile`: context guard, then a primary-key read of
the user row. -/
def GetProfile (db : List User) (uidVal : Option Json) : HttpResponse :=
  match uidVal with
  | some (.num n) =>
      match db.find? (fun u => u.id == goUint n) with
      | none => .plain 404 "User not found"
      | some u => .jsonUser u
  | _ => .plain 500 "Invalid user context"

/-! ## Object retriever (`DownloadVideoFromS3`, `parseS3URL`, `getContentType`) -/

/-- Go's `strings.TrimPrefix`: drop the prefix when present, otherwise
return the string unchanged. -/
def trimPrefixGo (s pre : String) : String :=
  if pre.data.isPrefixOf s.data then String.mk (s.data.drop pre.data.length) else s

/-- Split a character list at the first `'/'`; `none` when there is no
separator at all. -/
def splitSlashOnce : List Char → Option (List Char × List Char)
  | [] => none
  | c :: cs =>
      if c = '/' then some ([], cs)
      else
        match splitSlashOnce cs with
        | none => none
        | some (a, b) => some (c :: a, b)

/-- `handlers.parseS3URL`: trim an `s3://` prefix if present, then
`strings.SplitN(s, "/", 2)`; fewer than two parts (no separator) is the
"invalid S3 URL format" error, otherwise the bucket is the segment
before the first separator and the key everything after it. -/
def parseS3URL (s3URL : String) : Option (String × String) :=
  match splitSlashOnce (trimPrefixGo s3URL "s3://").data with
  | none => none
  | some (b, k) => some (String.mk b, String.mk k)

/-- Go's `filepath.Base` on a Unix path: `"."` for the empty path,
otherwise strip trailing slashes, keep everything after the last
remaining slash, and answer `"/"` when nothing remains (the path was
all slashes). -/
def goFilepathBase (path : String) : String :=
  if path = "" then "."
  else
    let p := (path.data.reverse.dropWhile (fun c => c = '/')).reverse
    let q := (p.reverse.takeWhile (fun c => c ≠ '/')).reverse
    if q = [] then "/" else String.mk q

/-- Go's `filepath.Ext`: the suffix of the final path element starting
at its last dot, or `""` when that element has no dot. -/
def goFilepathExt (path : String) : String :=
  let revSeg := path.data.reverse.takeWhile (fun c => c ≠ '/')
  if revSeg.any (fun c => c = '.') then
    String.mk ('.' :: (revSeg.takeWhile (fun c => c ≠ '.')).reverse)
  else ""

/-- Go's `strings.ToLower` restricted to ASCII (all extensions the
content-type table compares are ASCII). -/
def lowerAscii (s : String) : String :=
  String.mk (s.data.map (fun c =>
    if 'A' ≤ c ∧ c ≤ 'Z' then Char.ofNat (c.toNat + 32) else c))

/-- `handlers.getContentType`: the fixed extension → MIME table over
the lower-cased extension, defaulting to `application/octet-stream`. -/
def getContentType (filename : String) : String :=
  let ext := lowerAscii (goFilepathExt filename)
  if ext = ".mp4" then "video/mp4"
  else if ext = ".avi" then "video/x-msvideo"
  else if ext = ".mov" then "video/quicktime"
  else if ext = ".wmv" then "video/x-ms-wmv"
  else if ext = ".flv" then "video/x-flv"
  else if ext = ".webm" then "video/webm"
  else if ext = ".mkv" then "video/x-matroska"
  else "application/octet-stream"

/-- The filename derivation of `DownloadVideoFromS3`: the key's
`filepath.Base`, replaced by the synthesized `video_<id>.mp4` when the
base is `""` or `"."`. -/
def deriveFilename (videoId key : String) : String :=
  let filename := goFilepathBase key
  if filename = "" ∨ filename = "." then "video_" ++ videoId ++ ".mp4" else filename

/-- An S3 object as returned by `GetObject`: an optional reported
length and the byte stream in chunks. -/
structure S3Object where
  contentLength : Option Int
  bodyChunks : List (List Nat)

/-- The result of the `GetObject` call on the S3 collaborator. -/
inductive S3Result where
  | failure : S3Result
  | success (obj : S3Object) : S3Result

/-- `handlers.DownloadVideoFromS3`: context guard, UUID validation,
owner-scoped job lookup (absent-or-foreign → 404), readiness check on
the stored output locator, AWS session creation (`sessionOk` models
`session.NewSession`), locator parsing, S3 retrieval through `s3Get`,
then the streamed attachment with derived filename and content type. -/
def DownloadVideoFromS3 (db : List TranscodingJob) (uidVal : Option Json)
    (videoId : String) (sessionOk : Bool)
    (s3Get : String → String → S3Result) : HttpResponse :=
  match uidVal with
  | some (.num n) =>
      if uuidOk videoId then
        match dbFirstTranscode db videoId (goUint n) with
        | none => .plain 404 "Video not found or access denied"
        | some job =>
            match job.outputURL with
            | none => .plain 404 "Video is not ready for download"
            | some outputURL =>
                if outputURL = "" then .plain 404 "Video is not ready for download"
                else if sessionOk then
                  match parseS3URL outputURL with
                  | none => .plain 500 "Invalid video storage location"
                  | some (bucket, key) =>
                      match s3Get bucket key with
                      | .failure => .plain 500 "Error retrieving video file"
                      | .success obj =>
                          let filename := deriveFilename videoId key
                          .download (getContentType filename) filename
                            obj.contentLength (ioCopy obj.bodyChunks)
                else .plain 500 "Error connecting to storage service"
      else .plain 400 "Invalid video ID format"
  | _ => .plain 500 "Invalid user context"

/-- A canonical-form identifier used to evaluate the handlers on
concrete inputs. -/
def sampleUUID : String := "00000000-0000-0000-0000-000000000000"

/-- A concrete completed transcoding job owned by caller 42 whose
stored output locator is the argument. -/
def sampleJob (out : Option String) : TranscodingJob :=
  { id := sampleUUID, jobId := "job-1", sourcePath := "s3://b/in.mp4",
    targetCodec := "h264", targetContainer := "mp4", sourceCodec := none,
    sourceContainer := none, outputURL := out, durationSeconds := none,
    status := "completed", errorMessage := none, gpuUsed := none,
    qualityPreset := none, bitrate := none, fileSizeBytes := none,
    sourceDuration := none, sourceBitrate := none, sourceWidth := none,
    sourceHeight := none, insertedAt := 0, updatedAt := 0, createdBy := some 42 }

/-! ## Basic lemmas about the map and header operations -/

theorem map_noop {α : Type} (l : List α) (f : α → α) (h : ∀ a ∈ l, f a = a) :
    l.map f = l := by
  induction l with
  | nil => rfl
  | cons a l ih =>
      rw [List.map_cons, h a (List.mem_cons_self a l),
        ih (fun b hb => h b (List.mem_cons_of_mem a hb))]

theorem assocFind_assocSet_self {β : Type} (l : List (String × β)) (k : String)
    (v : β) : assocFind (assocSet l k v) k = some v := by
  unfold assocSet assocFind
  by_cases hany : (l.any fun p => p.1 == k) = true
  · rw [if_pos hany]
    rw [List.find?_map]
    have hcong : ((fun p : String × β => p.1 == k) ∘ fun p => if p.1 == k then (k, v) else p)
        = fun p : String × β => p.1 == k := by
      funext p
      by_cases hp : p.1 = k
      · simp [hp]
      · simp [hp]
    rw [hcong]
    rcases List.any_eq_true.mp hany with ⟨q, hq, hqk⟩
    have hsome : (l.find? fun p => p.1 == k).isSome := by
      rw [List.find?_isSome]
      exact ⟨q, hq, hqk⟩
    rcases Option.isSome_iff_exists.mp hsome with ⟨r, hr⟩
    have hrk := List.find?_some hr
    simp only [] at hrk
    have hrk2 : r.1 = k := by simpa using hrk
    rw [hr]
    simp [hrk2]
  · rw [if_neg hany]
    rw [List.find?_append]
    have hnone : l.find? (fun p => p.1 == k) = none := by
      apply List.find?_eq_none.mpr
      intro p hp hpk
      exact hany (List.any_eq_true.mpr ⟨p, hp, hpk⟩)
    simp [hnone, List.find?]

theorem assocFind_assocSet_other {β : Type} (l : List (String × β))
    (k k2 : String) (v : β) (hne : k2 ≠ k) :
    assocFind (assocSet l k v) k2 = assocFind l k2 := by
  unfold assocSet assocFind
  by_cases hany : (l.any fun p => p.1 == k) = true
  · rw [if_pos hany]
    rw [List.find?_map]
    have hcong : ((fun p : String × β => p.1 == k2) ∘ fun p => if p.1 == k then (k, v) else p)
        = fun p : String × β => p.1 == k2 := by
      funext p
      by_cases hp : p.1 = k
      · have hne2 : ¬ (k == k2) = true := by simpa using Ne.symm hne
        simp [hp, hne2]
      · simp [hp]
    rw [hcong]
    cases hq : l.find? (fun p => p.1 == k2) with
    | none => simp
    | some q =>
        have hq2 := List.find?_some hq
        have hq3 : q.1 = k2 := by simpa using hq2
        have hqk : ¬ q.1 = k := by
          rw [hq3]
          exact hne
        simp [hqk]
  · rw [if_neg hany]
    rw [List.find?_append]
    have h1 : List.find? (fun p : String × β => p.1 == k2) [(k, v)] = none := by
      have hne2 : ¬ (k == k2) = true := by simpa using Ne.symm hne
      simp [List.find?, hne2]
    cases hq : l.find? (fun p => p.1 == k2) <;> simp [h1, hq]

theorem jsonLookup_mapSet_self (o : JsonObj) (k : String) (v : Json) :
    jsonLookup (mapSet o k v) k = some v :=
  assocFind_assocSet_self o k v

theorem jsonLookup_mapSet_other (o : JsonObj) (k k2 : String) (v : Json)
    (hne : k2 ≠ k) : jsonLookup (mapSet o k v) k2 = jsonLookup o k2 :=
  assocFind_assocSet_other o k k2 v hne

theorem hdrGet_hdrSet_self (h : Header) (k v : String) :
    hdrGet (hdrSet h k v) k = [v] := by
  unfold hdrGet hdrSet
  rw [assocFind_assocSet_self]
  rfl

theorem hdrGet_hdrSet_other (h : Header) (k v k2 : String) (hne : k2 ≠ k) :
    hdrGet (hdrSet h k v) k2 = hdrGet h k2 := by
  unfold hdrGet hdrSet
  rw [assocFind_assocSet_other _ _ _ _ hne]

theorem ioCopy_eq_flatten (chunks : List (List Nat)) :
    ioCopy chunks = chunks.flatten := by
  induction chunks with
  | nil => rfl
  | cons c cs ih => simp [ioCopy, ih]

theorem hdrGet_eq_nil_of_not_mem (h : Header) (k : String)
    (hk : ∀ p ∈ h, p.1 ≠ k) : hdrGet h k = [] := by
  unfold hdrGet assocFind
  have : h.find? (fun p => p.1 == k) = none := by
    apply List.find?_eq_none.mpr
    intro p hp
    simpa using hk p hp
  simp [this]

theorem hdrAdd_fresh (acc : Header) (k v : String)
    (hk : ∀ q ∈ acc, q.1 ≠ k) : hdrAdd acc k v = acc ++ [(k, [v])] := by
  unfold hdrAdd
  have : ¬ acc.any (fun p => p.1 == k) = true := by
    intro h
    rcases List.any_eq_true.mp h with ⟨q, hq, hqk⟩
    exact hk q hq (by simpa using hqk)
  simp [this]

theorem hdrAddAll_push (acc : Header) (k : String) (w vs : List String)
    (hk : ∀ q ∈ acc, q.1 ≠ k) :
    hdrAddAll (acc ++ [(k, w)]) k vs = acc ++ [(k, w ++ vs)] := by
  induction vs generalizing w with
  | nil => simp [hdrAddAll]
  | cons v vs ih =>
      have hstep : hdrAdd (acc ++ [(k, w)]) k v = acc ++ [(k, w ++ [v])] := by
        unfold hdrAdd
        have hany : (acc ++ [(k, w)]).any (fun p => p.1 == k) = true := by
          refine List.any_eq_true.mpr ⟨(k, w), ?_, by simp⟩
          simp
        rw [if_pos hany, List.map_append]
        congr 1
        · apply map_noop
          intro q hq
          simp [show ¬ (q.1 == k) = true by simpa using hk q hq]
        · simp
      show hdrAddAll (hdrAdd (acc ++ [(k, w)]) k v) k vs = _
      rw [hstep, ih (w ++ [v])]
      simp

theorem hdrAddAll_fresh (acc : Header) (k : String) (vs : List String)
    (hk : ∀ q ∈ acc, q.1 ≠ k) (hvs : vs ≠ []) :
    hdrAddAll acc k vs = acc ++ [(k, vs)] := by
  cases vs with
  | nil => exact absurd rfl hvs
  | cons v vs =>
      show hdrAddAll (hdrAdd acc k v) k vs = _
      rw [hdrAdd_fresh acc k v hk, hdrAddAll_push acc k [v] vs hk]
      simp

/-- The header-copy loops of the Go handlers, run on a header map with
duplicate-free names and non-empty value lists, reproduce exactly the
entries satisfying the copy condition, in order. -/
theorem copyFold_eq_filter (P : String × List String → Prop) [DecidablePred P]
    (l : Header) (acc : Header)
    (hnodup : (l.map Prod.fst).Nodup)
    (hvals : ∀ p ∈ l, p.2 ≠ [])
    (hdisj : ∀ p ∈ l, ∀ q ∈ acc, q.1 ≠ p.1) :
    l.foldl (fun a p => if P p then hdrAddAll a p.1 p.2 else a) acc
      = acc ++ l.filter (fun p => decide (P p)) := by
  induction l generalizing acc with
  | nil => simp
  | cons p rest ih =>
      have hnodup2 : (rest.map Prod.fst).Nodup := by
        simpa using (List.nodup_cons.mp (by simpa using hnodup)).2
      have hhead : p.1 ∉ rest.map Prod.fst :=
        (List.nodup_cons.mp (by simpa using hnodup)).1
      have hvals2 : ∀ q ∈ rest, q.2 ≠ [] :=
        fun q hq => hvals q (List.mem_cons_of_mem p hq)
      by_cases hP : P p
      · rw [List.foldl_cons, if_pos hP,
          hdrAddAll_fresh acc p.1 p.2
            (fun q hq => hdisj p (List.mem_cons_self p rest) q hq)
            (hvals p (List.mem_cons_self p rest))]
        rw [ih (acc ++ [(p.1, p.2)]) hnodup2 hvals2 ?_]
        · rw [List.filter_cons, if_pos (by simpa using hP)]
          simp
        · intro r hr q hq
          rcases List.mem_append.mp hq with hq1 | hq2
          · exact hdisj r (List.mem_cons_of_mem p hr) q hq1
          · have : q = (p.1, p.2) := by simpa using hq2
            rw [this]
            intro hcontr
            exact hhead (by
              rw [hcontr]
              exact List.mem_map_of_mem Prod.fst hr)
      · rw [List.foldl_cons, if_neg hP,
          ih acc hnodup2 hvals2 (fun r hr q hq => hdisj r (List.mem_cons_of_mem p hr) q hq),
          List.filter_cons, if_neg (by simpa using hP)]

/-- The unconditional header-copy loop of the response relay. -/
theorem copyAll_eq (l : Header)
    (hnodup : (l.map Prod.fst).Nodup)
    (hvals : ∀ p ∈ l, p.2 ≠ []) :
    l.foldl (fun acc p => hdrAddAll acc p.1 p.2) [] = l := by
  have hlam : (fun (acc : Header) (p : String × List String) => hdrAddAll acc p.1 p.2)
      = fun acc p => if True then hdrAddAll acc p.1 p.2 else acc := by
    funext acc p
    simp
  rw [hlam, copyFold_eq_filter (fun _ => True) l [] hnodup hvals (by simp)]
  simp

/-- `hdrGet` commutes with filtering when the filter keeps every entry
stored under the looked-up name. -/
theorem hdrGet_filter_of_kept (l : Header) (pb : String × List String → Bool)
    (name : String) (hp : ∀ p ∈ l, p.1 = name → pb p = true) :
    hdrGet (l.filter pb) name = hdrGet l name := by
  unfold hdrGet assocFind
  induction l with
  | nil => simp
  | cons p rest ih =>
      have ih2 := ih (fun q hq h => hp q (List.mem_cons_of_mem p hq) h)
      by_cases hpn : p.1 = name
      · rw [List.filter_cons, if_pos (hp p (List.mem_cons_self p rest) hpn)]
        rw [List.find?_cons_of_pos _ (by simpa using hpn),
          List.find?_cons_of_pos _ (by simpa using hpn)]
      · cases hpb : pb p
        · rw [List.filter_cons]
          simp only [hpb, Bool.false_eq_true, if_false]
          rw [List.find?_cons_of_neg _ (by simpa using hpn)] at *
          exact ih2
        · rw [List.filter_cons, if_pos hpb,
            List.find?_cons_of_neg _ (by simpa using hpn),
            List.find?_cons_of_neg _ (by simpa using hpn)]
          exact ih2

/-- Splitting at the first separator of `b ++ "/" ++ k` recovers `b`
and `k` when `b` is separator-free. -/
theorem splitSlashOnce_append (b k : List Char) (hb : '/' ∉ b) :
    splitSlashOnce (b ++ '/' :: k) = some (b, k) := by
  induction b with
  | nil => simp [splitSlashOnce]
  | cons c cs ih =>
      have hc : ¬ c = '/' := fun h => hb (by simp [h])
      rw [List.cons_append]
      simp [splitSlashOnce, hc, ih (fun h => hb (List.mem_cons_of_mem c h))]

/-- `filepath.Base` of a non-empty all-separator path is `"/"`. -/
theorem goFilepathBase_all_slashes (key : String) (hne : key ≠ "")
    (hall : ∀ c ∈ key.data, c = '/') : goFilepathBase key = "/" := by
  unfold goFilepathBase
  rw [if_neg hne]
  have hdrop : key.data.reverse.dropWhile (fun c => c = '/') = [] := by
    apply List.dropWhile_eq_nil_iff.mpr
    intro c hc
    simp [hall c (List.mem_reverse.mp hc)]
  simp [hdrop]

/-! ## Claim theorems -/

/-- C2: For every request to a protected route whose Authorization
header is absent, is not exactly a two-token "Bearer token" form, or
carries a token that the verifier rejects (bad signature, structurally
invalid, or expired), `AuthMiddleware` responds 401 Unauthorized and
the wrapped handler is never invoked — the outcome is `unauthorized`
and is the same whatever the wrapped handler is, so no backend request
is dispatched and no database query is issued on its behalf. -/
theorem authGate_rejects_malformed_credentials {α : Type}
    (verify : String → Option Claims) (authHeader : String) (next : Ctx → α)
    (hbad : authHeader = ""
      ∨ (∀ tok, goSplitSpace authHeader ≠ ["Bearer", tok])
      ∨ (∃ tok, goSplitSpace authHeader = ["Bearer", tok] ∧ verify tok = none)) :
    (∃ msg, authMiddleware verify authHeader next = .unauthorized 401 msg)
    ∧ ∀ (next2 : Ctx → α),
        authMiddleware verify authHeader next2 = authMiddleware verify authHeader next := by
  have hres : ∃ msg, ∀ (n2 : Ctx → α),
      authMiddleware verify authHeader n2 = .unauthorized 401 msg := by
    rcases hbad with h1 | h2 | h3
    · exact ⟨"Authorization header required", fun n2 => by simp [authMiddleware, h1]⟩
    · by_cases he : authHeader = ""
      · exact ⟨"Authorization header required", fun n2 => by simp [authMiddleware, he]⟩
      · cases hl : goSplitSpace authHeader with
        | nil =>
            exact ⟨"Invalid authorization format", fun n2 => by
              simp [authMiddleware, he, hl]⟩
        | cons b rest =>
            cases rest with
            | nil =>
                exact ⟨"Invalid authorization format", fun n2 => by
                  simp [authMiddleware, he, hl]⟩
            | cons tok rest2 =>
                cases rest2 with
                | nil =>
                    by_cases hb : b = "Bearer"
                    · exact absurd (by rw [hl, hb]) (h2 tok)
                    · exact ⟨"Invalid authorization format", fun n2 => by
                        simp [authMiddleware, he, hl, hb]⟩
                | cons c rest3 =>
                    exact ⟨"Invalid authorization format", fun n2 => by
                      simp [authMiddleware, he, hl]⟩
    · rcases h3 with ⟨tok, hsp, hv⟩
      by_cases he : authHeader = ""
      · exact ⟨"Authorization header required", fun n2 => by simp [authMiddleware, he]⟩
      · exact ⟨"Invalid token", fun n2 => by simp [authMiddleware, he, hsp, hv]⟩
  rcases hres with ⟨msg, hmsg⟩
  exact ⟨⟨msg, hmsg next⟩, fun n2 => (hmsg n2).trans (hmsg next).symm⟩

/-- Witness for C2 at a concrete rejected token. -/
theorem authGate_rejects_malformed_credentials_witness :
    (∃ msg, authMiddleware (fun _ => none) "Bearer abc" (fun _ => (0 : Nat))
        = .unauthorized 401 msg)
    ∧ ∀ (next2 : Ctx → Nat),
        authMiddleware (fun _ => none) "Bearer abc" next2
          = authMiddleware (fun _ => none) "Bearer abc" (fun _ => (0 : Nat)) :=
  authGate_rejects_malformed_credentials (fun _ => none) "Bearer abc" (fun _ => 0)
    (Or.inr (Or.inr ⟨"abc", by decide, rfl⟩))

/-- C10: For every request whose token passes verification but whose
`user_id` claim is absent or not a JSON number, the middleware still
proceeds (it stores the raw claim value with no check, so there is no
401), and every protected handler — both proxies, the four job reads,
the download and the profile read — responds 500 Internal Server Error
with "Invalid user context", because the `float64` type assertion on
the context value is the only check and it happens in the handler. -/
theorem nonNumeric_user_claim_yields_500 {α : Type}
    (verify : String → Option Claims) (cs : Claims) (authHeader tok : String)
    (hsp : goSplitSpace authHeader = ["Bearer", tok])
    (hv : verify tok = some cs)
    (hnum : isNumClaim (jsonLookup cs "user_id") = false)
    (enc : JsonObj → List Nat) (dec : String → UnmarshalResult)
    (base method body : String) (inHdrs : Header)
    (backend : OutboundRequest → BackendResult)
    (dbA : List VideoAnalysis) (dbT : List TranscodingJob) (dbU : List User)
    (jobId : String) (sessionOk : Bool) (s3Get : String → String → S3Result)
    (f : Ctx → α) :
    authMiddleware verify authHeader f
        = .handled (f { userIdVal := jsonLookup cs "user_id",
                        emailVal := jsonLookup cs "email" })
    ∧ AnalyzeVideoProxy enc dec base method (jsonLookup cs "user_id") inHdrs body backend
        = .plain 500 "Invalid user context"
    ∧ TranscodeVideoProxy enc dec base method (jsonLookup cs "user_id") inHdrs body backend
        = .plain 500 "Invalid user context"
    ∧ GetVideoAnalyses dbA (jsonLookup cs "user_id") = .plain 500 "Invalid user context"
    ∧ GetVideoAnalysesInfo dbA (jsonLookup cs "user_id") jobId
        = .plain 500 "Invalid user context"
    ∧ GetVideoTranscodes dbT (jsonLookup cs "user_id") = .plain 500 "Invalid user context"
    ∧ GetVideoTranscodeInfo dbT (jsonLookup cs "user_id") jobId
        = .plain 500 "Invalid user context"
    ∧ DownloadVideoFromS3 dbT (jsonLookup cs "user_id") jobId sessionOk s3Get
        = .plain 500 "Invalid user context"
    ∧ GetProfile dbU (jsonLookup cs "user_id") = .plain 500 "Invalid user context" := by
  have he : authHeader ≠ "" := by
    intro h
    rw [h] at hsp
    simp [goSplitSpace, splitOnChar] at hsp
  refine ⟨by simp [authMiddleware, he, hsp, hv], ?_⟩
  cases hj : jsonLookup cs "user_id" with
  | none =>
      refine ⟨?_, ?_, ?_, ?_, ?_, ?_, ?_, ?_⟩ <;>
        simp [AnalyzeVideoProxy, TranscodeVideoProxy, proxyHandler,
          prepareProxyRequest, GetVideoAnalyses, GetVideoAnalysesInfo,
          GetVideoTranscodes, GetVideoTranscodeInfo, DownloadVideoFromS3,
          GetProfile]
  | some j =>
      cases j with
      | num n =>
          rw [hj] at hnum
          simp [isNumClaim] at hnum
      | null =>
          refine ⟨?_, ?_, ?_, ?_, ?_, ?_, ?_, ?_⟩ <;>
            simp [AnalyzeVideoProxy, TranscodeVideoProxy, proxyHandler,
              prepareProxyRequest, GetVideoAnalyses, GetVideoAnalysesInfo,
              GetVideoTranscodes, GetVideoTranscodeInfo, DownloadVideoFromS3,
              GetProfile]
      | bool b =>
          refine ⟨?_, ?_, ?_, ?_, ?_, ?_, ?_, ?_⟩ <;>
            simp [AnalyzeVideoProxy, TranscodeVideoProxy, proxyHandler,
              prepareProxyRequest, GetVideoAnalyses, GetVideoAnalysesInfo,
              GetVideoTranscodes, GetVideoTranscodeInfo, DownloadVideoFromS3,
              GetProfile]
      | str s =>
          refine ⟨?_, ?_, ?_, ?_, ?_, ?_, ?_, ?_⟩ <;>
            simp [AnalyzeVideoProxy, TranscodeVideoProxy, proxyHandler,
              prepareProxyRequest, GetVideoAnalyses, GetVideoAnalysesInfo,
              GetVideoTranscodes, GetVideoTranscodeInfo, DownloadVideoFromS3,
              GetProfile]
      | arr a =>
          refine ⟨?_, ?_, ?_, ?_, ?_, ?_, ?_, ?_⟩ <;>
            simp [AnalyzeVideoProxy, TranscodeVideoProxy, proxyHandler,
              prepareProxyRequest, GetVideoAnalyses, GetVideoAnalysesInfo,
              GetVideoTranscodes, GetVideoTranscodeInfo, DownloadVideoFromS3,
              GetProfile]
      | obj o =>
          refine ⟨?_, ?_, ?_, ?_, ?_, ?_, ?_, ?_⟩ <;>
            simp [AnalyzeVideoProxy, TranscodeVideoProxy, proxyHandler,
              prepareProxyRequest, GetVideoAnalyses, GetVideoAnalysesInfo,
              GetVideoTranscodes, GetVideoTranscodeInfo, DownloadVideoFromS3,
              GetProfile]

/-- Witness for C10 at a concrete token whose `user_id` claim is the
string "42" rather than a number. -/
theorem nonNumeric_user_claim_yields_500_witness :
    authMiddleware (fun _ => some [("user_id", Json.str "42")]) "Bearer x"
        (fun c => GetProfile [] c.userIdVal)
        = .handled (GetProfile []
            (({ userIdVal := jsonLookup [("user_id", Json.str "42")] "user_id",
                emailVal := jsonLookup [("user_id", Json.str "42")] "email" } : Ctx)).userIdVal)
    ∧ GetProfile [] (jsonLookup [("user_id", Json.str "42")] "user_id")
        = .plain 500 "Invalid user context" := by
  have h := nonNumeric_user_claim_yields_500
    (fun _ => some [("user_id", Json.str "42")]) [("user_id", Json.str "42")]
    "Bearer x" "x" (by decide) rfl rfl
    (fun _ => []) (fun _ => .err) "" "" "" [] (fun _ => .failure)
    [] [] [] "" false (fun _ _ => .failure)
    (fun c => GetProfile [] c.userIdVal)
  exact ⟨h.1, h.2.2.2.2.2.2.2.2⟩

/-- C3: For every authenticated write-route request with a parseable
(or empty) JSON object body, the forwarded body is the original
key/value object with the caller's subject identifier added under the
route-specific key — `"user"` on the analysis route, `"created_by"` on
the transcoding route — and the injected value overwrites any
caller-supplied value under that key while every other key is left
unchanged. -/
theorem injected_body_overwrites_owner_key
    (enc : JsonObj → List Nat) (dec : String → UnmarshalResult)
    (base method body : String) (uid : Nat) (inHdrs : Header)
    (o : JsonObj) (ho : decodeBody dec body = .decoded o) :
    (∃ req, prepareProxyRequest enc dec "user" (base ++ "/analyze-video") method
        (some (.num uid)) inHdrs body = .ready req
      ∧ req.bodyObj = injectOwner "user" uid o
      ∧ jsonLookup req.bodyObj "user" = some (.num uid)
      ∧ ∀ k, k ≠ "user" → jsonLookup req.bodyObj k = jsonLookup o k)
    ∧ (∃ req, prepareProxyRequest enc dec "created_by" (base ++ "/transcode") method
        (some (.num uid)) inHdrs body = .ready req
      ∧ req.bodyObj = injectOwner "created_by" uid o
      ∧ jsonLookup req.bodyObj "created_by" = some (.num uid)
      ∧ ∀ k, k ≠ "created_by" → jsonLookup req.bodyObj k = jsonLookup o k) := by
  have hg : goUint (uid : Int) = uid := Int.toNat_ofNat uid
  have h1 : prepareProxyRequest enc dec "user" (base ++ "/analyze-video") method
      (some (.num uid)) inHdrs body
      = .ready { method := method, url := base ++ "/analyze-video",
                 headers := buildForwardHeaders inHdrs (enc (injectOwner "user" uid o)).length,
                 bodyObj := injectOwner "user" uid o,
                 body := enc (injectOwner "user" uid o) } := by
    simp [prepareProxyRequest, ho, hg]
  have h2 : prepareProxyRequest enc dec "created_by" (base ++ "/transcode") method
      (some (.num uid)) inHdrs body
      = .ready { method := method, url := base ++ "/transcode",
                 headers := buildForwardHeaders inHdrs (enc (injectOwner "created_by" uid o)).length,
                 bodyObj := injectOwner "created_by" uid o,
                 body := enc (injectOwner "created_by" uid o) } := by
    simp [prepareProxyRequest, ho, hg]
  exact ⟨⟨_, h1, rfl, jsonLookup_mapSet_self o "user" (.num uid),
          fun k hk => jsonLookup_mapSet_other o "user" k (.num uid) hk⟩,
         ⟨_, h2, rfl, jsonLookup_mapSet_self o "created_by" (.num uid),
          fun k hk => jsonLookup_mapSet_other o "created_by" k (.num uid) hk⟩⟩

/-- Witness for C3: a concrete empty body (decoded to the empty
object) for subject 42, with a body that already tries to claim
`"user": 7`. -/
theorem injected_body_overwrites_owner_key_witness :
    (∃ req, prepareProxyRequest (fun _ => []) (fun _ => .decoded [("user", .num 7)])
        "user" ("" ++ "/analyze-video") "POST" (some (.num 42)) [] "{}" = .ready req
      ∧ req.bodyObj = injectOwner "user" 42 [("user", .num 7)]
      ∧ jsonLookup req.bodyObj "user" = some (.num 42)
      ∧ ∀ k, k ≠ "user" → jsonLookup req.bodyObj k = jsonLookup [("user", .num 7)] k)
    ∧ (∃ req, prepareProxyRequest (fun _ => []) (fun _ => .decoded [("user", .num 7)])
        "created_by" ("" ++ "/transcode") "POST" (some (.num 42)) [] "{}" = .ready req
      ∧ req.bodyObj = injectOwner "created_by" 42 [("user", .num 7)]
      ∧ jsonLookup req.bodyObj "created_by" = some (.num 42)
      ∧ ∀ k, k ≠ "created_by" → jsonLookup req.bodyObj k = jsonLookup [("user", .num 7)] k) :=
  injected_body_overwrites_owner_key (fun _ => []) (fun _ => .decoded [("user", .num 7)])
    "" "POST" "{}" 42 [] [("user", .num 7)] (by simp [decodeBody])

/-- C6: For every forwarded write-route request, the outbound header
map agrees with the inbound one on every name other than
`Content-Type`, `Content-Length` and `Authorization` (all values, in
order); `Authorization` is stripped, `Content-Type` is
`application/json`, and `Content-Length` is the byte length of the
injected body.  Stated for the shared forwarding code of both proxy
routes; inbound maps produced by `net/http` have duplicate-free
canonical names and non-empty value lists, which the hypotheses
record. -/
theorem forwarded_headers_shape
    (enc : JsonObj → List Nat) (dec : String → UnmarshalResult)
    (key url method body : String) (uid : Nat) (inHdrs : Header)
    (o : JsonObj) (ho : decodeBody dec body = .decoded o)
    (hnodup : (inHdrs.map Prod.fst).Nodup)
    (hvals : ∀ p ∈ inHdrs, p.2 ≠ []) :
    ∃ req, prepareProxyRequest enc dec key url method (some (.num uid)) inHdrs body
        = .ready req
      ∧ hdrGet req.headers "Content-Type" = ["application/json"]
      ∧ hdrGet req.headers "Content-Length"
          = [toString (enc (injectOwner key uid o)).length]
      ∧ hdrGet req.headers "Authorization" = []
      ∧ ∀ name, name ≠ "Content-Type" → name ≠ "Content-Length" →
          name ≠ "Authorization" → hdrGet req.headers name = hdrGet inHdrs name := by
  have hg : goUint (uid : Int) = uid := Int.toNat_ofNat uid
  have h1 : prepareProxyRequest enc dec key url method (some (.num uid)) inHdrs body
      = .ready { method := method, url := url,
                 headers := buildForwardHeaders inHdrs (enc (injectOwner key uid o)).length,
                 bodyObj := injectOwner key uid o,
                 body := enc (injectOwner key uid o) } := by
    simp [prepareProxyRequest, ho, hg]
  refine ⟨_, h1, ?_, ?_, ?_, ?_⟩ <;>
    rw [show buildForwardHeaders inHdrs (enc (injectOwner key uid o)).length
      = hdrSet (hdrSet
          (inHdrs.filter (fun p => decide (p.1 ≠ "Authorization" ∧ p.1 ≠ "Content-Length")))
          "Content-Type" "application/json")
          "Content-Length" (toString (enc (injectOwner key uid o)).length) from by
        unfold buildForwardHeaders
        rw [copyFold_eq_filter (fun p => p.1 ≠ "Authorization" ∧ p.1 ≠ "Content-Length")
          inHdrs [] hnodup hvals (by simp)]
        simp]
  · rw [hdrGet_hdrSet_other _ _ _ _ (by decide), hdrGet_hdrSet_self]
  · rw [hdrGet_hdrSet_self]
  · rw [hdrGet_hdrSet_other _ _ _ _ (by decide),
      hdrGet_hdrSet_other _ _ _ _ (by decide)]
    apply hdrGet_eq_nil_of_not_mem
    intro p hp
    have := (List.mem_filter.mp hp).2
    simp at this
    exact this.1
  · intro name hct hcl hauth
    rw [hdrGet_hdrSet_other _ _ _ _ hcl, hdrGet_hdrSet_other _ _ _ _ hct]
    apply hdrGet_filter_of_kept
    intro p hp hpn
    simp [hpn]
    exact ⟨hauth, hcl⟩

/-- Witness for C6 at a concrete inbound header map carrying an
`Authorization` entry, a caller `Content-Length`, and a custom header. -/
theorem forwarded_headers_shape_witness :
    ∃ req, prepareProxyRequest (fun _ => [123, 125]) (fun _ => .err)
        "user" "u" "POST" (some (.num 42))
        [("Authorization", ["Bearer t"]), ("Content-Length", ["99"]), ("X-Trace", ["a", "b"])]
        "" = .ready req
      ∧ hdrGet req.headers "Content-Type" = ["application/json"]
      ∧ hdrGet req.headers "Content-Length"
          = [toString ((fun (_ : JsonObj) => ([123, 125] : List Nat)) (injectOwner "user" 42 [])).length]
      ∧ hdrGet req.headers "Authorization" = []
      ∧ ∀ name, name ≠ "Content-Type" → name ≠ "Content-Length" →
          name ≠ "Authorization" → hdrGet req.headers name
            = hdrGet [("Authorization", ["Bearer t"]), ("Content-Length", ["99"]),
                ("X-Trace", ["a", "b"])] name :=
  forwarded_headers_shape (fun _ => [123, 125]) (fun _ => .err) "user" "u" "POST" "" 42
    [("Authorization", ["Bearer t"]), ("Content-Length", ["99"]), ("X-Trace", ["a", "b"])]
    [] (by simp [decodeBody]) (by decide) (by decide)

/-- C5: For every successful backend dispatch on a write route, the
relayed response carries exactly the backend status code, exactly the
backend header entries (every name with all its values), and a body
that is the complete concatenation of all backend body chunks, however
many there are — the streamed copy loses and reorders nothing. -/
theorem relay_reproduces_backend_response
    (enc : JsonObj → List Nat) (dec : String → UnmarshalResult)
    (key url method body : String) (uid : Nat) (inHdrs : Header)
    (o : JsonObj) (resp : BackendResponse)
    (ho : decodeBody dec body = .decoded o)
    (hnodup : (resp.headers.map Prod.fst).Nodup)
    (hvals : ∀ p ∈ resp.headers, p.2 ≠ []) :
    proxyHandler enc dec key url method (some (.num uid)) inHdrs body
        (fun _ => .success resp)
      = .relay resp.status resp.headers resp.bodyChunks.flatten := by
  have hg : goUint (uid : Int) = uid := Int.toNat_ofNat uid
  simp only [proxyHandler, prepareProxyRequest, ho, hg]
  rw [relayResponse, copyAll_eq resp.headers hnodup hvals, ioCopy_eq_flatten]

/-- Witness for C5 at a concrete two-chunk backend response. -/
theorem relay_reproduces_backend_response_witness :
    proxyHandler (fun _ => []) (fun _ => .err) "user" "u" "POST" (some (.num 42)) [] ""
        (fun _ => .success { status := 207, headers := [("X-A", ["1", "2"])],
                             bodyChunks := [[10, 20], [30]] })
      = .relay 207 [("X-A", ["1", "2"])] [10, 20, 30] :=
  relay_reproduces_backend_response (fun _ => []) (fun _ => .err) "user" "u" "POST" "" 42 []
    [] { status := 207, headers := [("X-A", ["1", "2"])], bodyChunks := [[10, 20], [30]] }
    (by simp [decodeBody]) (by decide) (by decide)

/-- C4 (code bug): For every authenticated write-route request whose
non-empty body the JSON decoder rejects, both proxy handlers do
respond 400 Bad Request before any outbound request exists — the
result is the same for every backend.  But the claim fails on the body
`null`: `json.Unmarshal` accepts the literal `null` into a nil map
without error, so no 400 is produced; the subsequent ownership-key
assignment `originalBody[key] = uint(userID)` is an assignment to an
entry of a nil map and panics, producing no response at all (though
still forwarding nothing).  The final conjunct evaluates the handler
at that failing input. -/
theorem badBody_rejected_but_null_body_panics
    (enc : JsonObj → List Nat) (dec : String → UnmarshalResult)
    (base method body : String) (uid : Int) (inHdrs : Header)
    (backend : OutboundRequest → BackendResult)
    (hne : body ≠ "") :
    (dec body = .err →
        AnalyzeVideoProxy enc dec base method (some (.num uid)) inHdrs body backend
          = .plain 400 "Invalid JSON in request body"
        ∧ TranscodeVideoProxy enc dec base method (some (.num uid)) inHdrs body backend
          = .plain 400 "Invalid JSON in request body")
    ∧ (dec body = .nullMap →
        AnalyzeVideoProxy enc dec base method (some (.num uid)) inHdrs body backend
          = .panicked
        ∧ TranscodeVideoProxy enc dec base method (some (.num uid)) inHdrs body backend
          = .panicked)
    ∧ AnalyzeVideoProxy (fun _ => []) unmarshalNullModel "" "POST" (some (.num 7)) []
        "null" (fun _ => .failure) = .panicked
    ∧ TranscodeVideoProxy (fun _ => []) unmarshalNullModel "" "POST" (some (.num 7)) []
        "null" (fun _ => .failure) = .panicked := by
  refine ⟨fun herr => ?_, fun hnull => ?_, rfl, rfl⟩
  · constructor <;>
      simp [AnalyzeVideoProxy, TranscodeVideoProxy, proxyHandler,
        prepareProxyRequest, decodeBody, hne, herr]
  · constructor <;>
      simp [AnalyzeVideoProxy, TranscodeVideoProxy, proxyHandler,
        prepareProxyRequest, decodeBody, hne, hnull]

/-- Witness for C4 at the concrete inputs: a malformed body `{"` is
rejected with 400 on both routes, and the body `null` panics. -/
theorem badBody_rejected_but_null_body_panics_witness :
    ((unmarshalNullModel "\x7b\"" = .err →
        AnalyzeVideoProxy (fun _ => []) unmarshalNullModel "" "POST" (some (.num 7)) []
          "\x7b\"" (fun _ => .failure) = .plain 400 "Invalid JSON in request body"
        ∧ TranscodeVideoProxy (fun _ => []) unmarshalNullModel "" "POST" (some (.num 7)) []
          "\x7b\"" (fun _ => .failure) = .plain 400 "Invalid JSON in request body")
    ∧ (unmarshalNullModel "\x7b\"" = .nullMap →
        AnalyzeVideoProxy (fun _ => []) unmarshalNullModel "" "POST" (some (.num 7)) []
          "\x7b\"" (fun _ => .failure) = .panicked
        ∧ TranscodeVideoProxy (fun _ => []) unmarshalNullModel "" "POST" (some (.num 7)) []
          "\x7b\"" (fun _ => .failure) = .panicked)
    ∧ AnalyzeVideoProxy (fun _ => []) unmarshalNullModel "" "POST" (some (.num 7)) []
        "null" (fun _ => .failure) = .panicked
    ∧ TranscodeVideoProxy (fun _ => []) unmarshalNullModel "" "POST" (some (.num 7)) []
        "null" (fun _ => .failure) = .panicked)
    ∧ AnalyzeVideoProxy (fun _ => []) unmarshalNullModel "" "POST" (some (.num 7)) []
        "\x7b\"" (fun _ => .failure) = .plain 400 "Invalid JSON in request body" := by
  have h := badBody_rejected_but_null_body_panics (fun _ => []) unmarshalNullModel
    "" "POST" "\x7b\"" 7 [] (fun _ => .failure) (by decide)
  exact ⟨h, (h.1 rfl).1⟩

/-- C1: For every single-record read — `GET /auth/video/analyze/{id}`,
`GET /auth/video/transcode/{id}` and the download route's lookup — when
every stored record carrying the requested identifier is owned by
someone other than the caller, the caller receives the exact 404
response, and the response is identical to the one produced on a
database from which all records with that identifier are erased: a
foreign-owned record is never returned and is indistinguishable from
an absent one. -/
theorem foreign_records_read_as_not_found
    (dbA : List VideoAnalysis) (dbT : List TranscodingJob) (uid : Nat)
    (id : String) (sessionOk : Bool) (s3Get : String → String → S3Result)
    (hA : ∀ r ∈ dbA, r.jobId = id → r.createdBy ≠ some uid)
    (hT : ∀ t ∈ dbT, t.id = id → t.createdBy ≠ some uid)
    (hid : uuidOk id = true) :
    (GetVideoAnalysesInfo dbA (some (.num uid)) id
      = .plain 404 "Video analysis not found or access denied"
    ∧ GetVideoAnalysesInfo dbA (some (.num uid)) id
      = GetVideoAnalysesInfo (dbA.filter (fun r => !(r.jobId == id)))
          (some (.num uid)) id)
    ∧ (GetVideoTranscodeInfo dbT (some (.num uid)) id
      = .plain 404 "Video not found or access denied"
    ∧ GetVideoTranscodeInfo dbT (some (.num uid)) id
      = GetVideoTranscodeInfo (dbT.filter (fun t => !(t.id == id)))
          (some (.num uid)) id)
    ∧ (DownloadVideoFromS3 dbT (some (.num uid)) id sessionOk s3Get
      = .plain 404 "Video not found or access denied"
    ∧ DownloadVideoFromS3 dbT (some (.num uid)) id sessionOk s3Get
      = DownloadVideoFromS3 (dbT.filter (fun t => !(t.id == id)))
          (some (.num uid)) id sessionOk s3Get) := by
  have hg : goUint (uid : Int) = uid := Int.toNat_ofNat uid
  have hfA : dbFirstAnalysis dbA id uid = none := by
    apply List.find?_eq_none.mpr
    intro r hr
    simp only [Bool.and_eq_true, beq_iff_eq, not_and]
    intro h1 h2
    exact hA r hr h1 (by simpa using h2)
  have hfA2 : dbFirstAnalysis (dbA.filter (fun r => !(r.jobId == id))) id uid = none := by
    apply List.find?_eq_none.mpr
    intro r hr
    simp only [Bool.and_eq_true, beq_iff_eq, not_and]
    intro h1 h2
    exact hA r (List.mem_of_mem_filter hr) h1 (by simpa using h2)
  have hfT : dbFirstTranscode dbT id uid = none := by
    apply List.find?_eq_none.mpr
    intro t ht
    simp only [Bool.and_eq_true, beq_iff_eq, not_and]
    intro h1 h2
    exact hT t ht h1 (by simpa using h2)
  have hfT2 : dbFirstTranscode (dbT.filter (fun t => !(t.id == id))) id uid = none := by
    apply List.find?_eq_none.mpr
    intro t ht
    simp only [Bool.and_eq_true, beq_iff_eq, not_and]
    intro h1 h2
    exact hT t (List.mem_of_mem_filter ht) h1 (by simpa using h2)
  refine ⟨⟨?_, ?_⟩, ⟨?_, ?_⟩, ?_, ?_⟩ <;>
    simp [GetVideoAnalysesInfo, GetVideoTranscodeInfo, DownloadVideoFromS3,
      hid, hg, hfA, hfA2, hfT, hfT2]

/-- Witness for C1: a database holding records with the requested
identifier but owned by caller 7, read by caller 42. -/
theorem foreign_records_read_as_not_found_witness :
    (GetVideoAnalysesInfo
        [{ jobId := "00000000-0000-0000-0000-000000000000", videoId := "v1",
           s3Url := "s3://b/v1.mp4", peopleCount := none, status := "completed",
           createdAt := 0, completedAt := none, errorMessage := none,
           createdBy := some 7 }] (some (.num 42))
        "00000000-0000-0000-0000-000000000000"
      = .plain 404 "Video analysis not found or access denied"
    ∧ GetVideoAnalysesInfo
        [{ jobId := "00000000-0000-0000-0000-000000000000", videoId := "v1",
           s3Url := "s3://b/v1.mp4", peopleCount := none, status := "completed",
           createdAt := 0, completedAt := none, errorMessage := none,
           createdBy := some 7 }] (some (.num 42))
        "00000000-0000-0000-0000-000000000000"
      = GetVideoAnalysesInfo
          (List.filter (fun r => !(r.jobId == "00000000-0000-0000-0000-000000000000"))
            [{ jobId := "00000000-0000-0000-0000-000000000000", videoId := "v1",
               s3Url := "s3://b/v1.mp4", peopleCount := none, status := "completed",
               createdAt := 0, completedAt := none, errorMessage := none,
               createdBy := some 7 }]) (some (.num 42))
          "00000000-0000-0000-0000-000000000000")
    ∧ (GetVideoTranscodeInfo [] (some (.num 42)) "00000000-0000-0000-0000-000000000000"
      = .plain 404 "Video not found or access denied"
    ∧ GetVideoTranscodeInfo [] (some (.num 42)) "00000000-0000-0000-0000-000000000000"
      = GetVideoTranscodeInfo
          (List.filter (fun t => !(t.id == "00000000-0000-0000-0000-000000000000")) [])
          (some (.num 42)) "00000000-0000-0000-0000-000000000000")
    ∧ (DownloadVideoFromS3 [] (some (.num 42)) "00000000-0000-0000-0000-000000000000"
        true (fun _ _ => .failure)
      = .plain 404 "Video not found or access denied"
    ∧ DownloadVideoFromS3 [] (some (.num 42)) "00000000-0000-0000-0000-000000000000"
        true (fun _ _ => .failure)
      = DownloadVideoFromS3
          (List.filter (fun t => !(t.id == "00000000-0000-0000-0000-000000000000")) [])
          (some (.num 42)) "00000000-0000-0000-0000-000000000000"
          true (fun _ _ => .failure)) :=
  foreign_records_read_as_not_found
    [{ jobId := "00000000-0000-0000-0000-000000000000", videoId := "v1",
       s3Url := "s3://b/v1.mp4", peopleCount := none, status := "completed",
       createdAt := 0, completedAt := none, errorMessage := none,
       createdBy := some 7 }] [] 42 "00000000-0000-0000-0000-000000000000"
    true (fun _ _ => .failure) (by decide) (by decide) (by decide)

/-- C7: Every stored locator of the form `s3://<bucket>/<key>` (the
bucket separator-free) parses to that bucket and key; the scenario
locator `s3://bucket-a/path/to/file.mp4` yields bucket `bucket-a`, key
`path/to/file.mp4`, derived filename `file.mp4` and content type
`video/mp4`; each table extension maps to its MIME type and every
extension outside the table falls back to `application/octet-stream`. -/
theorem s3_locator_parse_and_content_type (bucket key : String)
    (hb : '/' ∉ bucket.data) :
    parseS3URL ("s3://" ++ bucket ++ "/" ++ key) = some (bucket, key)
    ∧ parseS3URL "s3://bucket-a/path/to/file.mp4" = some ("bucket-a", "path/to/file.mp4")
    ∧ goFilepathBase "path/to/file.mp4" = "file.mp4"
    ∧ getContentType "file.mp4" = "video/mp4"
    ∧ getContentType "x.avi" = "video/x-msvideo"
    ∧ getContentType "x.mov" = "video/quicktime"
    ∧ getContentType "x.wmv" = "video/x-ms-wmv"
    ∧ getContentType "x.flv" = "video/x-flv"
    ∧ getContentType "x.webm" = "video/webm"
    ∧ getContentType "x.mkv" = "video/x-matroska"
    ∧ (∀ f, lowerAscii (goFilepathExt f) ∉
        ([".mp4", ".avi", ".mov", ".wmv", ".flv", ".webm", ".mkv"] : List String) →
        getContentType f = "application/octet-stream") := by
  refine ⟨?_, by decide, by decide, by decide, by decide, by decide, by decide,
    by decide, by decide, by decide, ?_⟩
  · have hdata : ("s3://" ++ bucket ++ "/" ++ key).data
        = "s3://".data ++ (bucket.data ++ '/' :: key.data) := by
      simp [String.data_append]
    have htrim : trimPrefixGo ("s3://" ++ bucket ++ "/" ++ key) "s3://"
        = String.mk (bucket.data ++ '/' :: key.data) := by
      unfold trimPrefixGo
      rw [if_pos (List.isPrefixOf_iff_prefix.mpr (by rw [hdata]; exact List.prefix_append _ _))]
      congr 1
      rw [hdata]
      exact List.drop_left _ _
    unfold parseS3URL
    rw [htrim]
    show (match splitSlashOnce (bucket.data ++ '/' :: key.data) with
      | none => none
      | some (b, k) => some (String.mk b, String.mk k)) = some (bucket, key)
    rw [splitSlashOnce_append bucket.data key.data hb]
  · intro f hf
    simp only [List.mem_cons, List.not_mem_nil, or_false, not_or] at hf
    obtain ⟨h1, h2, h3, h4, h5, h6, h7⟩ := hf
    simp [getContentType, h1, h2, h3, h4, h5, h6, h7]

/-- Witness for C7 at the concrete bucket `bucket-a` and key
`path/to/file.mp4`. -/
theorem s3_locator_parse_and_content_type_witness :
    parseS3URL ("s3://" ++ "bucket-a" ++ "/" ++ "path/to/file.mp4")
      = some ("bucket-a", "path/to/file.mp4")
    ∧ ∀ f, lowerAscii (goFilepathExt f) ∉
        ([".mp4", ".avi", ".mov", ".wmv", ".flv", ".webm", ".mkv"] : List String) →
        getContentType f = "application/octet-stream" := by
  have h := s3_locator_parse_and_content_type "bucket-a" "path/to/file.mp4" (by decide)
  exact ⟨h.1, h.2.2.2.2.2.2.2.2.2.2⟩

/-- C8 counterexample: a completed job of caller 42 stores the locator
`s3://no-separator` (no bucket/key separator after trimming).  The
download fails at `parseS3URL` as the claim says, but the response is
500 Internal Server Error "Invalid video storage location" — not a
bad-request 4xx response. -/
theorem malformed_locator_counterexample :
    DownloadVideoFromS3 [sampleJob (some "s3://no-separator")] (some (.num 42))
        sampleUUID true (fun _ _ => .failure)
      = .plain 500 "Invalid video storage location"
    ∧ ¬ (DownloadVideoFromS3 [sampleJob (some "s3://no-separator")] (some (.num 42))
        sampleUUID true (fun _ _ => .failure)).isClientError := by
  have h : DownloadVideoFromS3 [sampleJob (some "s3://no-separator")] (some (.num 42))
      sampleUUID true (fun _ _ => .failure)
      = .plain 500 "Invalid video storage location" := by decide
  refine ⟨h, ?_⟩
  rw [h]
  simp [HttpResponse.isClientError]

/-- C8 (amended): For every download whose owned job record carries a
stored output locator with no bucket/key separator, the operation
fails with the malformed-locator error, and the response is 500
Internal Server Error "Invalid video storage location" — an internal
error, not a bad request. -/
theorem malformed_locator_yields_500
    (db : List TranscodingJob) (uid : Nat) (id u : String) (job : TranscodingJob)
    (s3Get : String → String → S3Result)
    (hid : uuidOk id = true)
    (hfind : dbFirstTranscode db id uid = some job)
    (hout : job.outputURL = some u) (hu : u ≠ "")
    (hparse : parseS3URL u = none) :
    DownloadVideoFromS3 db (some (.num uid)) id true s3Get
      = .plain 500 "Invalid video storage location"
    ∧ ¬ (DownloadVideoFromS3 db (some (.num uid)) id true s3Get).isClientError := by
  have hg : goUint (uid : Int) = uid := Int.toNat_ofNat uid
  have h : DownloadVideoFromS3 db (some (.num uid)) id true s3Get
      = .plain 500 "Invalid video storage location" := by
    simp [DownloadVideoFromS3, hg, hid, hfind, hout, hu, hparse]
  refine ⟨h, ?_⟩
  rw [h]
  simp [HttpResponse.isClientError]

/-- Witness for the amended C8 at the concrete separator-free
locator. -/
theorem malformed_locator_yields_500_witness :
    DownloadVideoFromS3 [sampleJob (some "s3://no-separator")] (some (.num 42))
        sampleUUID true (fun _ _ => .failure)
      = .plain 500 "Invalid video storage location"
    ∧ ¬ (DownloadVideoFromS3 [sampleJob (some "s3://no-separator")] (some (.num 42))
        sampleUUID true (fun _ _ => .failure)).isClientError :=
  malformed_locator_yields_500 [sampleJob (some "s3://no-separator")] 42 sampleUUID
    "s3://no-separator" (sampleJob (some "s3://no-separator")) (fun _ _ => .failure)
    (by decide) (by decide) rfl (by decide) (by decide)

/-- C9 counterexample: for the locator `s3://bucket//` the parsed key
is `"/"`, a bare separator; `filepath.Base "/"` is `"/"`, which the
fallback guard (`"" || "."`) does not catch, so the derived filename
is the raw `"/"` and not the synthesized `video_<id>.mp4`. -/
theorem bare_separator_filename_counterexample :
    DownloadVideoFromS3 [sampleJob (some "s3://bucket//")] (some (.num 42)) sampleUUID
        true (fun _ _ => .success { contentLength := none, bodyChunks := [] })
      = .download "application/octet-stream" "/" none []
    ∧ "/" ≠ "video_" ++ sampleUUID ++ ".mp4" := by
  constructor
  · decide
  · decide

/-- C9 (amended): the synthesized `video_<id>.mp4` name is used when
the parsed key is empty (where `filepath.Base` answers `"."`); a key
consisting solely of separators derives the raw filename `"/"` (the
fallback misses this case); and every key whose base is neither `""`
nor `"."` derives exactly that base, its final path segment. -/
theorem derived_filename_cases (videoId key : String) :
    (key = "" → deriveFilename videoId key = "video_" ++ videoId ++ ".mp4")
    ∧ (key ≠ "" → (∀ c ∈ key.data, c = '/') → deriveFilename videoId key = "/")
    ∧ (goFilepathBase key ≠ "" → goFilepathBase key ≠ "." →
        deriveFilename videoId key = goFilepathBase key) := by
  refine ⟨fun hk => ?_, fun hne hall => ?_, fun h1 h2 => ?_⟩
  · subst hk
    simp [deriveFilename, goFilepathBase]
  · unfold deriveFilename
    rw [goFilepathBase_all_slashes key hne hall]
    simp
  · unfold deriveFilename
    rw [if_neg]
    intro h
    rcases h with h | h
    · exact h1 h
    · exact h2 h

/-- Witness for the amended C9 at the empty key. -/
theorem derived_filename_cases_witness :
    ("" = "" → deriveFilename sampleUUID "" = "video_" ++ sampleUUID ++ ".mp4")
    ∧ ("" ≠ "" → (∀ c ∈ ("" : String).data, c = '/') → deriveFilename sampleUUID "" = "/")
    ∧ (goFilepathBase "" ≠ "" → goFilepathBase "" ≠ "." →
        deriveFilename sampleUUID "" = goFilepathBase "") :=
  derived_filename_cases sampleUUID ""

end AuthService
